import Mathlib

/-!
Verification of the RPC object-dispatch layer (`src/dispatchers/dispatcher.ts`).

Shallow embedding notes.
* JS payload values (the values that cross `onmessage`) are modelled by the
  inductive `Value`: primitives, a `Dispatcher` instance embedded in a payload
  (`Value.disp` carrying its `_guid`), ordered arrays and string-keyed objects.
* External collaborators (the schema validator compiler, the domain objects'
  method implementations, the instrumentation sink, `isUnderTest`,
  `monotonicTime`) are abstracted: validators and method bodies are oracle
  function fields of the configuration, instrumentation notifications are
  recorded as trace events, `monotonicTime` is a strictly increasing counter
  threaded through the state.
* JS exceptions are modelled with `Except`: an exception that escapes a
  function is `.error`; `assert` failures and the runtime `TypeError` raised
  by dereferencing the `!` non-null assertions are `.error` values as well.
* Mutable JS objects become explicit state records; aliasing of a
  `CallMetadata` record shared between a local variable and the
  `_waitOperations` table is modelled by writing the final mutated record
  into the table once (nothing observes the table between the writes).
-/

set_option autoImplicit false

namespace PWDispatch

/-- JS payload values flowing through the dispatch layer.  `Value.null`
stands for both `null` and `undefined`; `Value.disp g` is a live
`Dispatcher` instance (identified by its `_guid`) embedded in a payload. -/
inductive Value where
  | null
  | bool (b : Bool)
  | num (n : Int)
  | str (s : String)
  | disp (guid : String)
  | arr (elems : List Value)
  | obj (fields : List (String × Value))

/-- JS truthiness test: `!payload` succeeds exactly on `undefined`, `null`,
`false`, `0` and the empty string.  Arrays and objects are always truthy. -/
def isFalsy : Value → Bool
  | .null => true
  | .bool b => !b
  | .num n => n == 0
  | .str s => s == ""
  | _ => false

mutual

/-- `DispatcherConnection._replaceDispatchersWithGuids`: recursively walk an
outbound payload, replacing every embedded `Dispatcher` by an object holding
only its guid; arrays map element-wise, objects value-wise, everything else
(in particular falsy values, returned by the first guard) passes through. -/
def replaceDispatchersWithGuids (payload : Value) : Value :=
  if isFalsy payload then payload
  else
    match payload with
    | .disp g => .obj [("guid", .str g)]
    | .arr elems => .arr (replaceList elems)
    | .obj fields => .obj (replaceFields fields)
    | v => v

/-- `payload.map(p => this._replaceDispatchersWithGuids(p))` on an array. -/
def replaceList : List Value → List Value
  | [] => []
  | v :: vs => replaceDispatchersWithGuids v :: replaceList vs

/-- The `Object.keys` loop: map values, keep keys. -/
def replaceFields : List (String × Value) → List (String × Value)
  | [] => []
  | (k, v) :: fs => (k, replaceDispatchersWithGuids v) :: replaceFields fs

end

mutual

/-- Whether a payload still contains an embedded `Dispatcher` instance. -/
def containsDispatcher : Value → Bool
  | .disp _ => true
  | .arr elems => containsDispatcherList elems
  | .obj fields => containsDispatcherFields fields
  | _ => false

def containsDispatcherList : List Value → Bool
  | [] => false
  | v :: vs => containsDispatcher v || containsDispatcherList vs

def containsDispatcherFields : List (String × Value) → Bool
  | [] => false
  | (_, v) :: fs => containsDispatcher v || containsDispatcherFields fs

end

/-- Custom induction principle for the nested inductive `Value`. -/
def Value.indOn {motive : Value → Prop} (v : Value)
    (hnull : motive .null)
    (hbool : ∀ b, motive (.bool b))
    (hnum : ∀ n, motive (.num n))
    (hstr : ∀ s, motive (.str s))
    (hdisp : ∀ g, motive (.disp g))
    (harr : ∀ elems, (∀ e ∈ elems, motive e) → motive (.arr elems))
    (hobj : ∀ fields, (∀ f ∈ fields, motive f.2) → motive (.obj fields)) :
    motive v :=
  match v with
  | .null => hnull
  | .bool b => hbool b
  | .num n => hnum n
  | .str s => hstr s
  | .disp g => hdisp g
  | .arr elems =>
    harr elems fun e he =>
      Value.indOn e hnull hbool hnum hstr hdisp harr hobj
  | .obj fields =>
    hobj fields fun f hf =>
      Value.indOn f.2 hnull hbool hnum hstr hdisp harr hobj
termination_by sizeOf v
decreasing_by
  · have h1 : sizeOf e < sizeOf elems := List.sizeOf_lt_of_mem he
    simp only [Value.arr.sizeOf_spec]
    omega
  · have h1 : sizeOf f < sizeOf fields := List.sizeOf_lt_of_mem hf
    obtain ⟨k, w⟩ := f
    simp only [Value.obj.sizeOf_spec, Prod.mk.sizeOf_spec] at *
    omega

theorem replaceList_eq_map (elems : List Value) :
    replaceList elems = elems.map replaceDispatchersWithGuids := by
  induction elems with
  | nil => rfl
  | cons v vs ih => simp [replaceList, ih]

theorem replaceFields_eq_map (fields : List (String × Value)) :
    replaceFields fields = fields.map fun f => (f.1, replaceDispatchersWithGuids f.2) := by
  induction fields with
  | nil => rfl
  | cons f fs ih =>
    obtain ⟨k, v⟩ := f
    simp [replaceFields, ih]

theorem containsList_eq_any (elems : List Value) :
    containsDispatcherList elems = elems.any containsDispatcher := by
  induction elems with
  | nil => rfl
  | cons v vs ih => simp [containsDispatcherList, ih]

theorem containsFields_eq_any (fields : List (String × Value)) :
    containsDispatcherFields fields = fields.any fun f => containsDispatcher f.2 := by
  induction fields with
  | nil => rfl
  | cons f fs ih =>
    obtain ⟨k, v⟩ := f
    simp [containsDispatcherFields, ih]

theorem replace_arr (elems : List Value) :
    replaceDispatchersWithGuids (.arr elems)
      = .arr (elems.map replaceDispatchersWithGuids) := by
  rw [replaceDispatchersWithGuids, replaceList_eq_map]
  rfl

theorem replace_obj (fields : List (String × Value)) :
    replaceDispatchersWithGuids (.obj fields)
      = .obj (fields.map fun f => (f.1, replaceDispatchersWithGuids f.2)) := by
  rw [replaceDispatchersWithGuids, replaceFields_eq_map]
  rfl

theorem replace_disp (g : String) :
    replaceDispatchersWithGuids (.disp g) = .obj [("guid", .str g)] := rfl

/-- A non-container, non-dispatcher payload value. -/
def isAtom : Value → Bool
  | .null => true
  | .bool _ => true
  | .num _ => true
  | .str _ => true
  | _ => false

theorem replace_atom (v : Value) (h : isAtom v = true) :
    replaceDispatchersWithGuids v = v := by
  cases v with
  | null => rfl
  | bool b => cases b <;> rfl
  | num n =>
    show (if isFalsy (.num n) = true then Value.num n else Value.num n) = Value.num n
    exact ite_self _
  | str s =>
    show (if isFalsy (.str s) = true then Value.str s else Value.str s) = Value.str s
    exact ite_self _
  | disp g => simp [isAtom] at h
  | arr es => simp [isAtom] at h
  | obj fs => simp [isAtom] at h

/-- The output of the substitution never contains a dispatcher instance. -/
theorem replace_no_dispatcher (v : Value) :
    containsDispatcher (replaceDispatchersWithGuids v) = false := by
  induction v using Value.indOn with
  | hnull => rfl
  | hbool b => rw [replace_atom (.bool b) rfl]; cases b <;> rfl
  | hnum n => rw [replace_atom (.num n) rfl]; rfl
  | hstr s => rw [replace_atom (.str s) rfl]; rfl
  | hdisp g => rw [replace_disp]; rfl
  | harr elems ih =>
    rw [replace_arr, containsDispatcher, containsList_eq_any]
    simp only [List.any_map, List.any_eq_false, Bool.not_eq_true, Function.comp]
    intro e he
    exact ih e he
  | hobj fields ih =>
    rw [replace_obj, containsDispatcher, containsFields_eq_any]
    simp only [List.any_map, List.any_eq_false, Bool.not_eq_true, Function.comp]
    intro f hf
    exact ih f hf

/-- A payload with no embedded dispatcher instance is left unchanged. -/
theorem replace_of_no_dispatcher (v : Value) :
    containsDispatcher v = false → replaceDispatchersWithGuids v = v := by
  induction v using Value.indOn with
  | hnull => intro _; rfl
  | hbool b => intro _; exact replace_atom (.bool b) rfl
  | hnum n => intro _; exact replace_atom (.num n) rfl
  | hstr s => intro _; exact replace_atom (.str s) rfl
  | hdisp g => intro h; simp [containsDispatcher] at h
  | harr elems ih =>
    intro h
    rw [containsDispatcher, containsList_eq_any, List.any_eq_false] at h
    simp only [Bool.not_eq_true] at h
    rw [replace_arr]
    congr 1
    conv_rhs => rw [← List.map_id elems]
    apply List.map_congr_left
    intro e he
    exact ih e he (h e he)
  | hobj fields ih =>
    intro h
    rw [containsDispatcher, containsFields_eq_any, List.any_eq_false] at h
    simp only [Bool.not_eq_true] at h
    rw [replace_obj]
    congr 1
    conv_rhs => rw [← List.map_id fields]
    apply List.map_congr_left
    intro f hf
    have := ih f hf (h f hf)
    simp [this]

/-- C7: the outbound-payload substitution maps a dispatcher-node value to an
object containing only that node's identifier, maps arrays element-wise,
maps plain objects value-wise preserving keys, leaves every other value
(including absent/empty values) unchanged, and its result contains no
dispatcher-node values. -/
theorem replaceDispatchersWithGuids_spec :
    (∀ g, replaceDispatchersWithGuids (.disp g) = .obj [("guid", .str g)])
    ∧ (∀ elems, replaceDispatchersWithGuids (.arr elems)
        = .arr (elems.map replaceDispatchersWithGuids))
    ∧ (∀ fields, replaceDispatchersWithGuids (.obj fields)
        = .obj (fields.map fun f => (f.1, replaceDispatchersWithGuids f.2)))
    ∧ (∀ v, isAtom v = true → replaceDispatchersWithGuids v = v)
    ∧ (∀ v, containsDispatcher (replaceDispatchersWithGuids v) = false) :=
  ⟨replace_disp, replace_arr, replace_obj, replace_atom, replace_no_dispatcher⟩

/-- Witness for C7 at concrete inputs. -/
theorem replaceDispatchersWithGuids_spec_witness :
    replaceDispatchersWithGuids (.str "sibling") = .str "sibling"
    ∧ containsDispatcher
        (replaceDispatchersWithGuids (.arr [.disp "page@1", .str "sibling"])) = false :=
  ⟨replaceDispatchersWithGuids_spec.2.2.2.1 (.str "sibling") rfl,
   replaceDispatchersWithGuids_spec.2.2.2.2 (.arr [.disp "page@1", .str "sibling"])⟩

/-- C10: the outbound-payload substitution is idempotent, because its output
never contains a dispatcher-node value. -/
theorem replaceDispatchersWithGuids_idempotent (v : Value) :
    replaceDispatchersWithGuids (replaceDispatchersWithGuids v)
      = replaceDispatchersWithGuids v :=
  replace_of_no_dispatcher _ (replace_no_dispatcher v)

/-! ### Wire errors and outbound messages -/

/-- The JS exceptions observable at the dispatch layer.  `serializeError` is
an external collaborator and is modelled as the identity on these values. -/
inductive RTErr where
  | targetClosed
  | validation (message : String)
  | mismatch (type method : String)
  | typeErrorUndefined (prop : String)
  | domain (message : String)
deriving DecidableEq

/-- Everything handed to `onmessage`: terminal replies (success or error,
correlated by message id) and guid-addressed notifications/events. -/
inductive OutMsg where
  | result (id : Nat) (v : Value)
  | errorReply (id : Nat) (e : RTErr)
  | event (guid : String) (method : String) (params : Value)

/-- `DispatcherConnection.sendMessageToClient`: serialize the params and hand
the message to `onmessage`. -/
def sendMessageToClient (guid method : String) (params : Value) : OutMsg :=
  .event guid method (replaceDispatchersWithGuids params)

/-- The message id a terminal reply carries, if the message is one. -/
def OutMsg.replyId : OutMsg → Option Nat
  | .result id _ => some id
  | .errorReply id _ => some id
  | .event _ _ _ => none

/-! ### Association lists (JS `Map` with string keys, insertion ordered) -/

def alookup {α : Type} : List (String × α) → String → Option α
  | [], _ => none
  | (k, v) :: t, key => if k = key then some v else alookup t key

/-- `Map.set`: replace the value in place if the key exists, append otherwise. -/
def aset {α : Type} : List (String × α) → String → α → List (String × α)
  | [], key, v => [(key, v)]
  | (k, w) :: t, key, v => if k = key then (key, v) :: t else (k, w) :: aset t key v

/-- `Map.delete`. -/
def aremove {α : Type} : List (String × α) → String → List (String × α)
  | [], _ => []
  | (k, w) :: t, key => if k = key then t else (k, w) :: aremove t key

def alookupD {α : Type} (m : List (String × α)) (key : String) (d : α) : α :=
  (alookup m key).getD d

theorem alookup_aset_self {α : Type} (m : List (String × α)) (k : String) (v : α) :
    alookup (aset m k v) k = some v := by
  induction m with
  | nil => simp [aset, alookup]
  | cons p t ih =>
    obtain ⟨k', w⟩ := p
    by_cases h : k' = k <;> simp [aset, alookup, h, ih]

theorem aset_aset_self {α : Type} (m : List (String × α)) (k : String) (a b : α) :
    aset (aset m k a) k b = aset m k b := by
  induction m with
  | nil => simp [aset]
  | cons p t ih =>
    obtain ⟨k', w⟩ := p
    by_cases h : k' = k <;> simp [aset, h, ih]

theorem aremove_aset_of_none {α : Type} (m : List (String × α)) (k : String) (v : α)
    (h : alookup m k = none) : aremove (aset m k v) k = m := by
  induction m with
  | nil => simp [aset, aremove]
  | cons p t ih =>
    obtain ⟨k', w⟩ := p
    by_cases hk : k' = k
    · simp [alookup, hk] at h
    · simp [alookup, hk] at h
      simp [aset, aremove, hk, ih h]

/-! ### The dispatcher tree -/

/-- A snapshot of a dispatcher and its (transitive) `_dispatchers` children
maps: guid, `_isScope` flag, children in insertion order. -/
inductive DTree where
  | mk (guid : String) (isScope : Bool) (children : List DTree)

def DTree.guid : DTree → String
  | .mk g _ _ => g

def DTree.isScope : DTree → Bool
  | .mk _ s _ => s

def DTree.children : DTree → List DTree
  | .mk _ _ cs => cs

mutual

def treeGuids : DTree → List String
  | .mk g _ cs => g :: treeGuidsList cs

def treeGuidsList : List DTree → List String
  | [] => []
  | t :: ts => treeGuids t ++ treeGuidsList ts

end

mutual

/-- `Dispatcher._debugScopeState`: the recursive live-tree snapshot. -/
def debugScopeStateValue : DTree → Value
  | .mk g _ cs => .obj [("_guid", .str g), ("objects", .arr (debugScopeStateList cs))]

def debugScopeStateList : List DTree → List Value
  | [] => []
  | t :: ts => debugScopeStateValue t :: debugScopeStateList ts

end

/-- The `__dispose__` teardown notification a scope emits for itself. -/
def disposeMessage (g : String) : OutMsg :=
  sendMessageToClient g "__dispose__" (.obj [])

mutual

/-- The client-visible notifications emitted by `Dispatcher._dispose` on a
subtree: all children's notifications (in order), then the node's own
`__dispose__` when it is a scope. -/
def disposeEvents : DTree → List OutMsg
  | .mk g sc cs => disposeEventsList cs ++ (if sc then [disposeMessage g] else [])

def disposeEventsList : List DTree → List OutMsg
  | [] => []
  | t :: ts => disposeEvents t ++ disposeEventsList ts

end

/-! ### Connection lifecycle state -/

/-- The mutable lifecycle state of a `DispatcherConnection`:
`registry` is the key set of the connection-wide `_dispatchers` map (the
dispatcher objects themselves are elided), `childMaps` the key lists of the
per-dispatcher `_dispatchers` maps, `disposedSet` the guids whose
`_disposed` flag is set (the flag outlives map removal), `outbox` everything
handed to `onmessage`. -/
structure LifeSt where
  registry : List String
  childMaps : List (String × List String)
  disposedSet : List String
  outbox : List OutMsg

/-- The `Dispatcher` constructor: assert the guid is not registered on the
connection, register it, then (for a non-root node) assert and register on
the parent's map and announce `__create__` to the client under the parent's
guid.  `parent = none` models constructing against the bare connection (the
root). -/
def construct (st : LifeSt) (parent : Option String) (type : String)
    (initArg : Value) (isScope : Bool) (guid : String) : Except String LifeSt :=
  if guid ∈ st.registry then
    .error "assert failed: guid is already registered on the connection"
  else
    let st1 : LifeSt := { st with registry := st.registry ++ [guid] }
    match parent with
    | none => .ok { st1 with childMaps := aset st1.childMaps guid [] }
    | some p =>
      if guid ∈ alookupD st1.childMaps p [] then
        .error "assert failed: guid is already registered on the parent"
      else
        let st2 : LifeSt :=
          { st1 with childMaps := aset st1.childMaps p (alookupD st1.childMaps p [] ++ [guid]) }
        let st3 : LifeSt := { st2 with childMaps := aset st2.childMaps guid [] }
        .ok { st3 with outbox := st3.outbox ++ [sendMessageToClient p "__create__"
              (.obj [("type", .str type), ("initializer", initArg), ("guid", .str guid)])] }

mutual

/-- `Dispatcher._dispose`: assert not yet disposed, set the flag, unlink from
the parent's map and the connection registry, dispose all children
depth-first, clear the own children map, then emit `__dispose__` when the
node is a scope. -/
def dispose (parentGuid : Option String) (t : DTree) (st : LifeSt) : Except String LifeSt :=
  match t with
  | .mk g isScope children =>
    if g ∈ st.disposedSet then .error "assert failed: dispatcher is already disposed"
    else
      let st1 : LifeSt := { st with disposedSet := st.disposedSet ++ [g] }
      let st2 : LifeSt :=
        match parentGuid with
        | some p => { st1 with childMaps := aset st1.childMaps p ((alookupD st1.childMaps p []).erase g) }
        | none => st1
      let st3 : LifeSt := { st2 with registry := st2.registry.erase g }
      match disposeChildren g children st3 with
      | .error e => .error e
      | .ok st4 =>
        let st5 : LifeSt := { st4 with childMaps := aset st4.childMaps g [] }
        if isScope then .ok { st5 with outbox := st5.outbox ++ [disposeMessage g] }
        else .ok st5

/-- The `for (const dispatcher of [...this._dispatchers.values()])` loop. -/
def disposeChildren (parentGuid : String) (ts : List DTree) (st : LifeSt) : Except String LifeSt :=
  match ts with
  | [] => .ok st
  | c :: cs =>
    match dispose (some parentGuid) c st with
    | .error e => .error e
    | .ok st' => disposeChildren parentGuid cs st'

end

/-- `Dispatcher._dispatchEvent`: a disposed node's event is dropped in
production but raises under the test configuration; a live node's event is
serialized and sent under the node's own guid. -/
def dispatchEvent (underTest disposed : Bool) (guid method : String) (params : Value)
    (outbox : List OutMsg) : Except String (List OutMsg) :=
  if disposed then
    if underTest then
      .error (guid ++ " is sending \"" ++ method ++ "\" event after being disposed")
    else
      .ok outbox
  else
    .ok (outbox ++ [sendMessageToClient guid method params])

/-! ### Disposal lemmas -/

/-- Custom induction principle for the nested inductive `DTree`. -/
def DTree.indOn {motive : DTree → Prop} (t : DTree)
    (h : ∀ g sc cs, (∀ c ∈ cs, motive c) → motive (.mk g sc cs)) : motive t :=
  match t with
  | .mk g sc cs => h g sc cs fun c hc => DTree.indOn c h
termination_by sizeOf t
decreasing_by
  have h1 : sizeOf c < sizeOf cs := List.sizeOf_lt_of_mem hc
  simp only [DTree.mk.sizeOf_spec]
  omega

theorem disposeEvents_shape (t : DTree) :
    ∀ m ∈ disposeEvents t, ∃ g, g ∈ treeGuids t ∧ m = disposeMessage g := by
  induction t using DTree.indOn with
  | h g sc cs IH =>
    have hlist : ∀ cs' : List DTree, (∀ c ∈ cs', ∀ m ∈ disposeEvents c,
          ∃ g0, g0 ∈ treeGuids c ∧ m = disposeMessage g0) →
        ∀ m ∈ disposeEventsList cs', ∃ g0, g0 ∈ treeGuidsList cs' ∧ m = disposeMessage g0 := by
      intro cs'
      induction cs' with
      | nil => intro _ m hm; simp [disposeEventsList] at hm
      | cons c rest ihrest =>
        intro hall m hm
        rw [disposeEventsList, List.mem_append] at hm
        rcases hm with hm | hm
        · obtain ⟨g0, hg0, hmg⟩ := hall c (by simp) m hm
          exact ⟨g0, by simp [treeGuidsList, hg0], hmg⟩
        · obtain ⟨g0, hg0, hmg⟩ := ihrest (fun c' hc' => hall c' (by simp [hc'])) m hm
          exact ⟨g0, by simp [treeGuidsList, hg0], hmg⟩
    intro m hm
    rw [disposeEvents, List.mem_append] at hm
    rcases hm with hm | hm
    · obtain ⟨g0, hg0, hmg⟩ := hlist cs IH m hm
      exact ⟨g0, by simp [treeGuids, hg0], hmg⟩
    · rcases sc with _ | _
      · simp at hm
      · simp at hm
        exact ⟨g, by simp [treeGuids], hm⟩

theorem disposeEventsList_shape (ts : List DTree) :
    ∀ m ∈ disposeEventsList ts, ∃ g, g ∈ treeGuidsList ts ∧ m = disposeMessage g := by
  induction ts with
  | nil => intro m hm; simp [disposeEventsList] at hm
  | cons c rest ihrest =>
    intro m hm
    rw [disposeEventsList, List.mem_append] at hm
    rcases hm with hm | hm
    · obtain ⟨g0, hg0, hmg⟩ := disposeEvents_shape c m hm
      exact ⟨g0, by simp [treeGuidsList, hg0], hmg⟩
    · obtain ⟨g0, hg0, hmg⟩ := ihrest m hm
      exact ⟨g0, by simp [treeGuidsList, hg0], hmg⟩

theorem dispose_ok (t : DTree) : ∀ (p : Option String) (st : LifeSt),
    (treeGuids t).Nodup →
    (∀ g ∈ treeGuids t, g ∉ st.disposedSet) →
    st.registry.Nodup →
    ∃ st' : LifeSt, dispose p t st = .ok st'
      ∧ st'.disposedSet = st.disposedSet ++ treeGuids t
      ∧ (∀ x, x ∈ st'.registry ↔ x ∈ st.registry ∧ x ∉ treeGuids t)
      ∧ st'.registry.Nodup
      ∧ st'.outbox = st.outbox ++ disposeEvents t := by
  induction t using DTree.indOn with
  | h g sc cs IH =>
    have hlist : ∀ cs' : List DTree,
        (∀ c ∈ cs', ∀ (p' : Option String) (st0 : LifeSt),
            (treeGuids c).Nodup → (∀ x ∈ treeGuids c, x ∉ st0.disposedSet) →
            st0.registry.Nodup →
            ∃ st1 : LifeSt, dispose p' c st0 = .ok st1
              ∧ st1.disposedSet = st0.disposedSet ++ treeGuids c
              ∧ (∀ x, x ∈ st1.registry ↔ x ∈ st0.registry ∧ x ∉ treeGuids c)
              ∧ st1.registry.Nodup
              ∧ st1.outbox = st0.outbox ++ disposeEvents c) →
        ∀ st0 : LifeSt, (treeGuidsList cs').Nodup →
          (∀ x ∈ treeGuidsList cs', x ∉ st0.disposedSet) →
          st0.registry.Nodup →
          ∃ st1 : LifeSt, disposeChildren g cs' st0 = .ok st1
            ∧ st1.disposedSet = st0.disposedSet ++ treeGuidsList cs'
            ∧ (∀ x, x ∈ st1.registry ↔ x ∈ st0.registry ∧ x ∉ treeGuidsList cs')
            ∧ st1.registry.Nodup
            ∧ st1.outbox = st0.outbox ++ disposeEventsList cs' := by
      intro cs'
      induction cs' with
      | nil =>
        intro _ st0 _ _ hr0
        exact ⟨st0, rfl, by simp [treeGuidsList], by simp [treeGuidsList], hr0,
          by simp [disposeEventsList]⟩
      | cons c rest ihrest =>
        intro hall st0 hn0 hf0 hr0
        rw [treeGuidsList, List.nodup_append] at hn0
        obtain ⟨hnc, hnrest, hdisj⟩ := hn0
        obtain ⟨stA, hdA, hsetA, hregA, hrndA, houtA⟩ :=
          hall c (by simp) (some g) st0 hnc
            (fun x hx => hf0 x (by rw [treeGuidsList, List.mem_append]; exact Or.inl hx)) hr0
        have hfrest : ∀ x ∈ treeGuidsList rest, x ∉ stA.disposedSet := by
          intro x hx
          rw [hsetA, List.mem_append]
          push_neg
          constructor
          · exact hf0 x (by rw [treeGuidsList, List.mem_append]; exact Or.inr hx)
          · intro hxc
            exact (hdisj hxc) hx
        obtain ⟨stB, hdB, hsetB, hregB, hrndB, houtB⟩ :=
          ihrest (fun c' hc' => hall c' (by simp [hc'])) stA hnrest hfrest hrndA
        refine ⟨stB, ?_, ?_, ?_, hrndB, ?_⟩
        · simp only [disposeChildren, hdA, hdB]
        · rw [hsetB, hsetA, treeGuidsList, List.append_assoc]
        · intro x
          rw [hregB x, hregA x, treeGuidsList, List.mem_append]
          tauto
        · rw [houtB, houtA, disposeEventsList, List.append_assoc]
    intro p st hn hf hr
    rw [treeGuids] at hn hf
    have hg : g ∉ st.disposedSet := hf g (by simp)
    rw [List.nodup_cons] at hn
    obtain ⟨hgnotin, hncs⟩ := hn
    -- the state after the flag is set and the node is unlinked
    cases p with
    | none =>
      have hst3 :
          ∃ st1 : LifeSt, disposeChildren g cs
              ⟨st.registry.erase g, st.childMaps, st.disposedSet ++ [g], st.outbox⟩ = .ok st1
            ∧ st1.disposedSet = (st.disposedSet ++ [g]) ++ treeGuidsList cs
            ∧ (∀ x, x ∈ st1.registry ↔ x ∈ st.registry.erase g ∧ x ∉ treeGuidsList cs)
            ∧ st1.registry.Nodup
            ∧ st1.outbox = st.outbox ++ disposeEventsList cs := by
        apply hlist cs IH _ hncs _ (hr.erase g)
        intro x hx
        rw [List.mem_append]
        push_neg
        refine ⟨hf x (by simp [hx]), ?_⟩
        intro hxg
        rw [List.mem_singleton] at hxg
        exact hgnotin (hxg ▸ hx)
      obtain ⟨stB, hdB, hsetB, hregB, hrndB, houtB⟩ := hst3
      rw [dispose]
      rw [if_neg hg]
      simp only [hdB]
      rcases sc with _ | _
      · refine ⟨{ stB with childMaps := aset stB.childMaps g [] }, rfl, ?_, ?_, hrndB, ?_⟩
        · show stB.disposedSet = st.disposedSet ++ treeGuids (.mk g false cs)
          rw [hsetB, treeGuids, List.append_assoc]
          rfl
        · intro x
          show x ∈ stB.registry ↔ x ∈ st.registry ∧ x ∉ treeGuids (.mk g false cs)
          rw [hregB x, hr.mem_erase_iff, treeGuids, List.mem_cons]
          tauto
        · show stB.outbox = st.outbox ++ disposeEvents (.mk g false cs)
          rw [houtB, disposeEvents]
          simp
      · refine ⟨{ stB with childMaps := aset stB.childMaps g [], outbox := stB.outbox ++ [disposeMessage g] }, rfl, ?_, ?_, hrndB, ?_⟩
        · show stB.disposedSet = st.disposedSet ++ treeGuids (.mk g true cs)
          rw [hsetB, treeGuids, List.append_assoc]
          rfl
        · intro x
          show x ∈ stB.registry ↔ x ∈ st.registry ∧ x ∉ treeGuids (.mk g true cs)
          rw [hregB x, hr.mem_erase_iff, treeGuids, List.mem_cons]
          tauto
        · show stB.outbox ++ [disposeMessage g] = st.outbox ++ disposeEvents (.mk g true cs)
          rw [houtB, disposeEvents]
          simp
    | some pg =>
      have hst3 :
          ∃ st1 : LifeSt, disposeChildren g cs
              ⟨st.registry.erase g,
               aset st.childMaps pg ((alookupD st.childMaps pg []).erase g),
               st.disposedSet ++ [g], st.outbox⟩ = .ok st1
            ∧ st1.disposedSet = (st.disposedSet ++ [g]) ++ treeGuidsList cs
            ∧ (∀ x, x ∈ st1.registry ↔ x ∈ st.registry.erase g ∧ x ∉ treeGuidsList cs)
            ∧ st1.registry.Nodup
            ∧ st1.outbox = st.outbox ++ disposeEventsList cs := by
        apply hlist cs IH _ hncs _ (hr.erase g)
        intro x hx
        rw [List.mem_append]
        push_neg
        refine ⟨hf x (by simp [hx]), ?_⟩
        intro hxg
        rw [List.mem_singleton] at hxg
        exact hgnotin (hxg ▸ hx)
      obtain ⟨stB, hdB, hsetB, hregB, hrndB, houtB⟩ := hst3
      rw [dispose]
      rw [if_neg hg]
      simp only [hdB]
      rcases sc with _ | _
      · refine ⟨{ stB with childMaps := aset stB.childMaps g [] }, rfl, ?_, ?_, hrndB, ?_⟩
        · show stB.disposedSet = st.disposedSet ++ treeGuids (.mk g false cs)
          rw [hsetB, treeGuids, List.append_assoc]
          rfl
        · intro x
          show x ∈ stB.registry ↔ x ∈ st.registry ∧ x ∉ treeGuids (.mk g false cs)
          rw [hregB x, hr.mem_erase_iff, treeGuids, List.mem_cons]
          tauto
        · show stB.outbox = st.outbox ++ disposeEvents (.mk g false cs)
          rw [houtB, disposeEvents]
          simp
      · refine ⟨{ stB with childMaps := aset stB.childMaps g [], outbox := stB.outbox ++ [disposeMessage g] }, rfl, ?_, ?_, hrndB, ?_⟩
        · show stB.disposedSet = st.disposedSet ++ treeGuids (.mk g true cs)
          rw [hsetB, treeGuids, List.append_assoc]
          rfl
        · intro x
          show x ∈ stB.registry ↔ x ∈ st.registry ∧ x ∉ treeGuids (.mk g true cs)
          rw [hregB x, hr.mem_erase_iff, treeGuids, List.mem_cons]
          tauto
        · show stB.outbox ++ [disposeMessage g] = st.outbox ++ disposeEvents (.mk g true cs)
          rw [houtB, disposeEvents]
          simp

theorem dispose_disposedSet_mono (t : DTree) :
    ∀ (p : Option String) (st st' : LifeSt), dispose p t st = .ok st' →
      ∀ x ∈ st.disposedSet, x ∈ st'.disposedSet := by
  induction t using DTree.indOn with
  | h g sc cs IH =>
    have hlist : ∀ cs' : List DTree,
        (∀ c ∈ cs', ∀ (p' : Option String) (st0 st1 : LifeSt),
            dispose p' c st0 = .ok st1 → ∀ x ∈ st0.disposedSet, x ∈ st1.disposedSet) →
        ∀ (st0 st1 : LifeSt), disposeChildren g cs' st0 = .ok st1 →
          ∀ x ∈ st0.disposedSet, x ∈ st1.disposedSet := by
      intro cs'
      induction cs' with
      | nil =>
        intro _ st0 st1 hok
        rw [disposeChildren] at hok
        cases hok
        exact fun x hx => hx
      | cons c rest ihrest =>
        intro hall st0 st1 hok
        rw [disposeChildren] at hok
        cases hA : dispose (some g) c st0 with
        | error e =>
          simp only [hA] at hok
          exact Except.noConfusion hok
        | ok stA =>
          simp only [hA] at hok
          intro x hx
          exact ihrest (fun c' hc' => hall c' (by simp [hc'])) stA st1 hok x
            (hall c (by simp) (some g) st0 stA hA x hx)
    intro p st st' hok x hx
    rw [dispose] at hok
    by_cases hg : g ∈ st.disposedSet
    · rw [if_pos hg] at hok
      exact Except.noConfusion hok
    · rw [if_neg hg] at hok
      have hx1 : x ∈ st.disposedSet ++ [g] := by
        rw [List.mem_append]
        exact Or.inl hx
      cases p with
      | none =>
        cases hB : disposeChildren g cs
            ⟨st.registry.erase g, st.childMaps, st.disposedSet ++ [g], st.outbox⟩ with
        | error e =>
          simp only [hB] at hok
          exact Except.noConfusion hok
        | ok stB =>
          simp only [hB] at hok
          have hxB : x ∈ stB.disposedSet := hlist cs IH _ stB hB x hx1
          rcases sc with _ | _
          · simp only [Bool.false_eq_true, if_false] at hok
            cases hok
            exact hxB
          · simp only [if_true] at hok
            cases hok
            exact hxB
      | some pg =>
        cases hB : disposeChildren g cs
            ⟨st.registry.erase g,
             aset st.childMaps pg ((alookupD st.childMaps pg []).erase g),
             st.disposedSet ++ [g], st.outbox⟩ with
        | error e =>
          simp only [hB] at hok
          exact Except.noConfusion hok
        | ok stB =>
          simp only [hB] at hok
          have hxB : x ∈ stB.disposedSet := hlist cs IH _ stB hB x hx1
          rcases sc with _ | _
          · simp only [Bool.false_eq_true, if_false] at hok
            cases hok
            exact hxB
          · simp only [if_true] at hok
            cases hok
            exact hxB

theorem disposeChildren_disposedSet_mono (pg : String) (cs : List DTree) :
    ∀ (st st' : LifeSt), disposeChildren pg cs st = .ok st' →
      ∀ x ∈ st.disposedSet, x ∈ st'.disposedSet := by
  induction cs with
  | nil =>
    intro st st' hok x hx
    rw [disposeChildren] at hok
    cases hok
    exact hx
  | cons c rest ih =>
    intro st st' hok x hx
    rw [disposeChildren] at hok
    cases hA : dispose (some pg) c st with
    | error e =>
      simp only [hA] at hok
      exact Except.noConfusion hok
    | ok stA =>
      simp only [hA] at hok
      exact ih stA st' hok x (dispose_disposedSet_mono c (some pg) st stA hA x hx)

theorem dispose_root_disposed (g : String) (sc : Bool) (cs : List DTree)
    (p : Option String) (st st' : LifeSt) (hok : dispose p (.mk g sc cs) st = .ok st') :
    g ∈ st'.disposedSet := by
  rw [dispose] at hok
  by_cases hg : g ∈ st.disposedSet
  · rw [if_pos hg] at hok
    exact Except.noConfusion hok
  · rw [if_neg hg] at hok
    have hg1 : g ∈ st.disposedSet ++ [g] := by
      rw [List.mem_append]
      exact Or.inr (by simp)
    cases p with
    | none =>
      cases hB : disposeChildren g cs
          ⟨st.registry.erase g, st.childMaps, st.disposedSet ++ [g], st.outbox⟩ with
      | error e =>
        simp only [hB] at hok
        exact Except.noConfusion hok
      | ok stB =>
        simp only [hB] at hok
        have hxB : g ∈ stB.disposedSet :=
          disposeChildren_disposedSet_mono g cs _ stB hB g hg1
        rcases sc with _ | _
        · simp only [Bool.false_eq_true, if_false] at hok
          cases hok
          exact hxB
        · simp only [if_true] at hok
          cases hok
          exact hxB
    | some pg =>
      cases hB : disposeChildren g cs
          ⟨st.registry.erase g,
           aset st.childMaps pg ((alookupD st.childMaps pg []).erase g),
           st.disposedSet ++ [g], st.outbox⟩ with
      | error e =>
        simp only [hB] at hok
        exact Except.noConfusion hok
      | ok stB =>
        simp only [hB] at hok
        have hxB : g ∈ stB.disposedSet :=
          disposeChildren_disposedSet_mono g cs _ stB hB g hg1
        rcases sc with _ | _
        · simp only [Bool.false_eq_true, if_false] at hok
          cases hok
          exact hxB
        · simp only [if_true] at hok
          cases hok
          exact hxB

/-! ### Claims C5, C6, C8, C9 -/

/-- C5: after `dispose()` on a live node N returns, N and every descendant
have been removed from the connection-wide registry, every descendant
finished disposing before the call returned, and a teardown notification
under N's own identifier was emitted iff N is a scope node, only after all
of N's descendants' teardown events. -/
theorem dispose_cascade_spec (p : Option String) (t : DTree) (st : LifeSt)
    (hn : (treeGuids t).Nodup)
    (hf : ∀ g ∈ treeGuids t, g ∉ st.disposedSet)
    (hr : st.registry.Nodup) :
    ∃ st' : LifeSt, dispose p t st = .ok st'
      ∧ (∀ g ∈ treeGuids t, g ∉ st'.registry)
      ∧ (∀ g ∈ treeGuids t, g ∈ st'.disposedSet)
      ∧ st'.outbox = st.outbox ++ disposeEventsList t.children
          ++ (if t.isScope then [disposeMessage t.guid] else [])
      ∧ (disposeMessage t.guid ∈ disposeEvents t ↔ t.isScope = true) := by
  obtain ⟨st', hok, hset, hreg, hrnd, hout⟩ := dispose_ok t p st hn hf hr
  refine ⟨st', hok, ?_, ?_, ?_, ?_⟩
  · intro g hg hcontra
    exact ((hreg g).mp hcontra).2 hg
  · intro g hg
    rw [hset, List.mem_append]
    exact Or.inr hg
  · obtain ⟨g0, sc0, cs0⟩ := t
    rw [hout, disposeEvents]
    simp [DTree.children, DTree.isScope, DTree.guid, List.append_assoc]
  · obtain ⟨g0, sc0, cs0⟩ := t
    simp only [DTree.guid, DTree.isScope]
    constructor
    · intro hm
      rw [disposeEvents, List.mem_append] at hm
      rcases hm with hm | hm
      · obtain ⟨g1, hg1, hmg⟩ := disposeEventsList_shape cs0 _ hm
        have hgg : g0 = g1 := by
          simpa [disposeMessage, sendMessageToClient] using hmg
        rw [treeGuids, List.nodup_cons] at hn
        exact absurd (hgg ▸ hg1) hn.1
      · rcases sc0 with _ | _
        · simp at hm
        · rfl
    · intro hsc
      rw [disposeEvents, hsc]
      simp

def c5Tree : DTree := .mk "s1" true [.mk "c1" false [], .mk "c2" true []]

def c5St : LifeSt :=
  ⟨["", "s1", "c1", "c2"],
   [("", ["s1"]), ("s1", ["c1", "c2"]), ("c1", []), ("c2", [])], [], []⟩

/-- Witness for C5 on a concrete two-child scope. -/
theorem dispose_cascade_spec_witness :
    ∃ st' : LifeSt, dispose (some "") c5Tree c5St = .ok st'
      ∧ (∀ g ∈ treeGuids c5Tree, g ∉ st'.registry)
      ∧ (∀ g ∈ treeGuids c5Tree, g ∈ st'.disposedSet)
      ∧ st'.outbox = c5St.outbox ++ disposeEventsList c5Tree.children
          ++ (if c5Tree.isScope then [disposeMessage c5Tree.guid] else [])
      ∧ (disposeMessage c5Tree.guid ∈ disposeEvents c5Tree ↔ c5Tree.isScope = true) :=
  dispose_cascade_spec (some "") c5Tree c5St (by decide) (by decide) (by decide)

/-- The lifecycle state right after `new DispatcherConnection()`, which
constructs the root dispatcher (a scope with the empty-string guid). -/
def lifeSt0 : LifeSt := ⟨[""], [("", [])], [], []⟩

theorem lifeSt0_is_fresh_connection :
    construct ⟨[], [], [], []⟩ none "" (.obj []) true "" = .ok lifeSt0 := rfl

/-- C6 (amended): constructing a node whose identifier is currently
registered on the connection fails fatally. -/
theorem construct_collision_fatal (st : LifeSt) (parent : Option String) (type : String)
    (initArg : Value) (isScope : Bool) (guid : String) (h : guid ∈ st.registry) :
    construct st parent type initArg isScope guid
      = .error "assert failed: guid is already registered on the connection" := by
  rw [construct, if_pos h]

/-- Witness for the amended C6. -/
theorem construct_collision_fatal_witness :
    construct lifeSt0 (some "") "Page" .null true ""
      = .error "assert failed: guid is already registered on the connection" :=
  construct_collision_fatal lifeSt0 (some "") "Page" .null true "" (by decide)

def c6Create1 : OutMsg :=
  .event "" "__create__"
    (.obj [("type", .str "Page"), ("initializer", .null), ("guid", .str "g")])

def c6StA : LifeSt := ⟨["", "g"], [("", ["g"]), ("g", [])], [], [c6Create1]⟩

def c6StB : LifeSt := ⟨[""], [("", []), ("g", [])], ["g"], [c6Create1]⟩

def c6StC : LifeSt := ⟨["", "g"], [("", ["g"]), ("g", [])], ["g"], [c6Create1, c6Create1]⟩

/-- C6 counterexample: the identifier "g" is assigned to a constructed node,
that node is disposed, and a later-constructed node is then successfully
assigned the same identifier — construction does not fail, so identifiers
are not never-reused within a connection. -/
theorem guid_reuse_after_dispose_counterexample :
    construct lifeSt0 (some "") "Page" .null false "g" = .ok c6StA
    ∧ dispose (some "") (.mk "g" false []) c6StA = .ok c6StB
    ∧ construct c6StB (some "") "Page" .null false "g" = .ok c6StC :=
  ⟨rfl, rfl, rfl⟩

/-- C8: a second `dispose()` on a node whose dispose already completed fails
fatally on the `assert(!this._disposed)` guard, before any unlinking or
notification. -/
theorem double_dispose_fatal (p p' : Option String) (t t' : DTree) (st st' : LifeSt)
    (hok : dispose p t st = .ok st') (hg : t'.guid = t.guid) :
    dispose p' t' st' = .error "assert failed: dispatcher is already disposed" := by
  obtain ⟨g, sc, cs⟩ := t
  obtain ⟨g', sc', cs'⟩ := t'
  simp only [DTree.guid] at hg
  subst hg
  have hmem : g' ∈ st'.disposedSet := dispose_root_disposed g' sc cs p st st' hok
  rw [dispose, if_pos hmem]

def c8Tree : DTree := .mk "n" true []

def c8St0 : LifeSt := ⟨["n"], [("n", [])], [], []⟩

def c8St1 : LifeSt := ⟨[], [("n", [])], ["n"], [disposeMessage "n"]⟩

/-- Witness for C8: disposing the same node twice. -/
theorem double_dispose_fatal_witness :
    dispose none c8Tree c8St1 = .error "assert failed: dispatcher is already disposed" :=
  double_dispose_fatal none none c8Tree c8Tree c8St0 c8St1 rfl rfl

/-- C9: an event emitted on a disposed node is silently dropped in
production, raises under the test configuration, and an event emitted on a
live node is forwarded to the connection under the node's own identifier. -/
theorem dispatchEvent_spec (underTest disposed : Bool) (guid method : String)
    (params : Value) (outbox : List OutMsg) :
    (disposed = true → underTest = false →
      dispatchEvent underTest disposed guid method params outbox = .ok outbox)
    ∧ (disposed = true → underTest = true →
      dispatchEvent underTest disposed guid method params outbox
        = .error (guid ++ " is sending \"" ++ method ++ "\" event after being disposed"))
    ∧ (disposed = false →
      dispatchEvent underTest disposed guid method params outbox
        = .ok (outbox ++ [sendMessageToClient guid method params])) := by
  refine ⟨?_, ?_, ?_⟩
  · intro hd hu
    subst hd
    subst hu
    rfl
  · intro hd hu
    subst hd
    subst hu
    rfl
  · intro hd
    subst hd
    rfl

/-- Witness for C9 covering all three behaviors at concrete inputs. -/
theorem dispatchEvent_spec_witness :
    dispatchEvent false true "page@1" "close" .null [] = .ok []
    ∧ dispatchEvent true true "page@1" "close" .null []
      = .error ("page@1" ++ " is sending \"" ++ "close" ++ "\" event after being disposed")
    ∧ dispatchEvent true false "page@1" "close" .null []
      = .ok ([] ++ [sendMessageToClient "page@1" "close" .null]) :=
  ⟨(dispatchEvent_spec false true "page@1" "close" .null []).1 rfl rfl,
   (dispatchEvent_spec true true "page@1" "close" .null []).2.1 rfl rfl,
   (dispatchEvent_spec true false "page@1" "close" .null []).2.2 rfl⟩

/-! ### CallMetadata and the dispatch/wait machinery -/

inductive Phase where
  | before
  | log
  | after
deriving DecidableEq

/-- The `params.info` wait descriptor (`waitId`, `phase`, `apiName` for
`before`, `message` for `log`, `error` for `after`; `stack` is elided, it is
only copied into metadata fields external collaborators read). -/
structure WaitInfo where
  waitId : String
  phase : Phase
  apiName : String
  message : String
  error : Option String
deriving DecidableEq

/-- Inbound message params: the optional wait descriptor plus the opaque
rest of the payload (consumed only by external collaborators). -/
structure MsgParams where
  info : Option WaitInfo
  data : Value

structure InMsg where
  id : Nat
  guid : String
  method : String
  params : MsgParams

/-- The per-invocation `CallMetadata` record.  The attribution fields
(`pageId`, `frameId`, `stack`) and the spread of the validated metadata are
elided: they are filled from external collaborators and never read by this
layer. -/
structure CallMetadata where
  id : Nat
  apiName : Option String
  startTime : Nat
  endTime : Nat
  type : String
  method : String
  log : List String
  error : Option String

/-- Mutable dispatch-relevant connection state: the `_waitOperations`
pending table and the `monotonicTime` clock (each read ticks it, keeping
it strictly monotonic). -/
structure WaitSt where
  waitOperations : List (String × CallMetadata)
  clock : Nat

/-- Notifications delivered to the external instrumentation sink. -/
inductive InstrEvent where
  | beforeCall (guid : String) (metadata : CallMetadata)
  | callLog (logName : String) (message : String) (guid : String) (metadata : CallMetadata)
  | afterCall (guid : String) (metadata : CallMetadata)

def InstrEvent.isAfterCall : InstrEvent → Bool
  | .afterCall _ _ => true
  | _ => false

/-- The outcome of one `dispatch` call: the new state, everything handed to
`onmessage`, and the instrumentation notifications, in order. -/
structure DispatchResult where
  st : WaitSt
  out : List OutMsg
  instr : List InstrEvent

/-- What the connection knows about one registered dispatcher: its `_type`
and whether its `_object` is an `SdkObject` (instrumentable). -/
structure DispInfo where
  type : String
  isSdk : Bool

/-- The connection's routing environment: the registry, the root's live
tree snapshot, and the external oracles.  `validate` abstracts
`_validateParams` followed by `_validateMetadata`; `hasMethod` the
`typeof dispatcher[method] === 'function'` check; `methodImpl` the domain
method: the log lines the external instrumentation pushed onto the call
metadata during the call, and the result or thrown error message. -/
structure DispCfg where
  dispatchers : List (String × DispInfo)
  root : DTree
  validate : String → String → MsgParams → Except RTErr Unit
  hasMethod : String → String → Bool
  methodImpl : String → String → MsgParams → List String × Except String Value

def kLoggingNote : String :=
  "\nNote: use DEBUG=pw:api environment variable to capture Playwright logs."

/-- `formatLogRecording`: the 60-column `=`-framed log block. -/
def formatLogRecording (log : List String) : String :=
  if log.isEmpty then ""
  else
    let header := " logs "
    let headerLength := 60
    let leftLength := (headerLength - header.length) / 2
    let rightLength := headerLength - header.length - leftLength
    "\n" ++ String.mk (List.replicate leftLength '=') ++ header
      ++ String.mk (List.replicate rightLength '=') ++ "\n"
      ++ String.intercalate "\n" log ++ "\n"
      ++ String.mk (List.replicate headerLength '=')

/-- The `phase: 'before'` arm: record `apiName`, store the metadata in the
pending table, then fall through to the normal call path — before-call
notification, method invocation and a normal terminal reply.  In `finally`
the `endTime` just read is reset to `0` and the switch returns before the
after-call notification.  The stored record is aliased with the local
`callMetadata`, so in-call log lines and a thrown error message also land
in the table entry; the aliased record's final value is written once. -/
def runWaitBefore (cfg : DispCfg) (st : WaitSt) (msg : InMsg) (disp : DispInfo)
    (info : WaitInfo) (md : CallMetadata) : Except RTErr DispatchResult :=
  let md1 : CallMetadata := { md with apiName := some info.apiName }
  let evB := InstrEvent.beforeCall msg.guid md1
  let r := cfg.methodImpl disp.type msg.method msg.params
  let md2 : CallMetadata := { md1 with log := md1.log ++ r.1 }
  match r.2 with
  | .ok v =>
    let st1 : WaitSt := { st with clock := st.clock + 1 }
    let md3 : CallMetadata := { md2 with endTime := 0 }
    let st2 : WaitSt := { st1 with waitOperations := aset st1.waitOperations info.waitId md3 }
    .ok ⟨st2, [.result msg.id (replaceDispatchersWithGuids v)], [evB]⟩
  | .error emsg =>
    let md3 : CallMetadata := { md2 with error := some emsg }
    let m := if md3.log.isEmpty then emsg
      else emsg ++ formatLogRecording md3.log ++ kLoggingNote
    let st1 : WaitSt := { st with clock := st.clock + 1 }
    let md4 : CallMetadata := { md3 with endTime := 0 }
    let st2 : WaitSt := { st1 with waitOperations := aset st1.waitOperations info.waitId md4 }
    .ok ⟨st2, [.errorReply msg.id (.domain m)], [evB]⟩

/-- The `phase: 'log'` arm: push the log line onto the pending record and
notify the log sink, then return with no reply.  For an unknown wait id the
`originalMetadata!.log` dereference raises a `TypeError` inside the guarded
block; the `catch` converts it into an error reply and the `finally`
returns before the after-call notification. -/
def runWaitLog (cfg : DispCfg) (st : WaitSt) (msg : InMsg) (disp : DispInfo)
    (info : WaitInfo) (md : CallMetadata) : Except RTErr DispatchResult :=
  match alookup st.waitOperations info.waitId with
  | none =>
    let st1 : WaitSt := { st with clock := st.clock + 1 }
    .ok ⟨st1, [.errorReply msg.id (.typeErrorUndefined "log")], []⟩
  | some om =>
    let om1 : CallMetadata := { om with log := om.log ++ [info.message] }
    let st1 : WaitSt := { st with waitOperations := aset st.waitOperations info.waitId om1 }
    let st2 : WaitSt := { st1 with clock := st1.clock + 1 }
    .ok ⟨st2, [], [.callLog "api" info.message msg.guid om1]⟩

/-- The `phase: 'after'` arm: the `try` block returns at once (no
before-call, no method call, no reply); in `finally` the pending record —
whose absence raises a `TypeError` that escapes `dispatch` — absorbs the
end time and the reported error, is removed from the table and replaces
the transient metadata for the single after-call notification. -/
def runWaitAfter (cfg : DispCfg) (st : WaitSt) (msg : InMsg) (disp : DispInfo)
    (info : WaitInfo) (md : CallMetadata) : Except RTErr DispatchResult :=
  let t1 := st.clock
  let st1 : WaitSt := { st with clock := st.clock + 1 }
  match alookup st1.waitOperations info.waitId with
  | none => .error (.typeErrorUndefined "endTime")
  | some om =>
    let om1 : CallMetadata := { om with endTime := t1, error := info.error }
    let st2 : WaitSt := { st1 with waitOperations := aremove st1.waitOperations info.waitId }
    .ok ⟨st2, [], [.afterCall msg.guid om1]⟩

/-- A plain call (no wait descriptor, empty wait id, or a non-instrumentable
target): before-call notification (instrumentable targets only), method
invocation, one terminal reply — on a thrown error the message is extended
with the formatted log block when log lines were recorded — then end time
and after-call notification (instrumentable targets only). -/
def runCall (cfg : DispCfg) (st : WaitSt) (msg : InMsg) (disp : DispInfo)
    (md : CallMetadata) (sdk : Bool) : Except RTErr DispatchResult :=
  let evB := if sdk then [InstrEvent.beforeCall msg.guid md] else []
  let r := cfg.methodImpl disp.type msg.method msg.params
  let md1 : CallMetadata := { md with log := md.log ++ r.1 }
  let t1 := st.clock
  let st1 : WaitSt := { st with clock := st.clock + 1 }
  match r.2 with
  | .ok v =>
    let md2 : CallMetadata := { md1 with endTime := t1 }
    let evA := if sdk then [InstrEvent.afterCall msg.guid md2] else []
    .ok ⟨st1, [.result msg.id (replaceDispatchersWithGuids v)], evB ++ evA⟩
  | .error emsg =>
    let md2 : CallMetadata := { md1 with error := some emsg }
    let m := if md2.log.isEmpty then emsg
      else emsg ++ formatLogRecording md2.log ++ kLoggingNote
    let md3 : CallMetadata := { md2 with endTime := t1 }
    let evA := if sdk then [InstrEvent.afterCall msg.guid md3] else []
    .ok ⟨st1, [.errorReply msg.id (.domain m)], evB ++ evA⟩

/-- The validated part of `dispatch`: read `monotonicTime` into the fresh
`CallMetadata`, then route through the wait-descriptor switch
(instrumentable targets with a truthy `waitId` only). -/
def dispatchInner (cfg : DispCfg) (st : WaitSt) (msg : InMsg) (disp : DispInfo) :
    Except RTErr DispatchResult :=
  let t0 := st.clock
  let st1 : WaitSt := { st with clock := st.clock + 1 }
  let md : CallMetadata :=
    { id := msg.id, apiName := none, startTime := t0, endTime := 0,
      type := disp.type, method := msg.method, log := [], error := none }
  if disp.isSdk then
    match msg.params.info with
    | some info =>
      if info.waitId ≠ "" then
        match info.phase with
        | .before => runWaitBefore cfg st1 msg disp info md
        | .log => runWaitLog cfg st1 msg disp info md
        | .after => runWaitAfter cfg st1 msg disp info md
      else runCall cfg st1 msg disp md true
    | none => runCall cfg st1 msg disp md true
  else runCall cfg st1 msg disp md false

/-- `DispatcherConnection.dispatch`: route by guid (unknown guid → closed
error reply), short-circuit the reserved introspection method, validate
params/metadata and the method's existence (failure → error reply), then
run the call. -/
def dispatch (cfg : DispCfg) (st : WaitSt) (msg : InMsg) : Except RTErr DispatchResult :=
  match alookup cfg.dispatchers msg.guid with
  | none => .ok ⟨st, [.errorReply msg.id .targetClosed], []⟩
  | some disp =>
    if msg.method = "debugScopeState" then
      .ok ⟨st, [.result msg.id (debugScopeStateValue cfg.root)], []⟩
    else
      match cfg.validate disp.type msg.method msg.params with
      | .error e => .ok ⟨st, [.errorReply msg.id e], []⟩
      | .ok _ =>
        if cfg.hasMethod disp.type msg.method then dispatchInner cfg st msg disp
        else .ok ⟨st, [.errorReply msg.id (.mismatch disp.type msg.method)], []⟩

/-- Sequential dispatch of several inbound messages, accumulating replies
and instrumentation events. -/
def runSeq (cfg : DispCfg) (st : WaitSt) :
    List InMsg → Except RTErr (WaitSt × List OutMsg × List InstrEvent)
  | [] => .ok (st, [], [])
  | m :: ms =>
    match dispatch cfg st m with
    | .error e => .error e
    | .ok r =>
      match runSeq cfg r.st ms with
      | .error e => .error e
      | .ok (st', out, instr) => .ok (st', r.out ++ out, r.instr ++ instr)

/-- Whether a message reaches the wait-descriptor switch: known guid, not
the introspection method, validation passes, the method exists, and the
target is instrumentable. -/
def waitTarget (cfg : DispCfg) (msg : InMsg) : Bool :=
  match alookup cfg.dispatchers msg.guid with
  | none => false
  | some disp =>
    !(msg.method == "debugScopeState")
    && (match cfg.validate disp.type msg.method msg.params with
        | .ok _ => true
        | .error _ => false)
    && cfg.hasMethod disp.type msg.method
    && disp.isSdk

/-- The messages that legitimately end with no reply at all: wait messages
with phase `log` (pending wait id) or phase `after` (pending wait id). -/
def waitNoReply (cfg : DispCfg) (st : WaitSt) (msg : InMsg) : Bool :=
  waitTarget cfg msg
  && (match msg.params.info with
      | some info =>
        (info.waitId != "")
        && (match info.phase with
            | .before => false
            | .log => (alookup st.waitOperations info.waitId).isSome
            | .after => (alookup st.waitOperations info.waitId).isSome)
      | none => false)

/-- The messages on which dispatch aborts fatally (exception from the
`finally` block): phase `after` with an unknown wait id. -/
def waitFatal (cfg : DispCfg) (st : WaitSt) (msg : InMsg) : Bool :=
  waitTarget cfg msg
  && (match msg.params.info with
      | some info =>
        (info.waitId != "")
        && (match info.phase with
            | .after => (alookup st.waitOperations info.waitId).isNone
            | _ => false)
      | none => false)

/-! ### Concrete fixtures (one instrumentable child under the root) -/

def testRoot : DTree := .mk "" true [.mk "obj1" false []]

def testCfg : DispCfg :=
  ⟨[("", ⟨"", true⟩), ("obj1", ⟨"Page", true⟩)], testRoot,
   fun _ _ _ => .ok (), fun _ _ => true, fun _ _ _ => ([], .ok .null)⟩

def msgBefore : InMsg :=
  ⟨5, "obj1", "waitForEventInfo", ⟨some ⟨"w1", .before, "x", "", none⟩, .null⟩⟩

def msgAfter : InMsg :=
  ⟨6, "obj1", "waitForEventInfo", ⟨some ⟨"w1", .after, "", "", none⟩, .null⟩⟩

def msgLogUnknown : InMsg :=
  ⟨7, "obj1", "waitForEventInfo", ⟨some ⟨"w9", .log, "", "boom", none⟩, .null⟩⟩

def msgAfterUnknown : InMsg :=
  ⟨8, "obj1", "waitForEventInfo", ⟨some ⟨"w9", .after, "", "", none⟩, .null⟩⟩

def msgPlain : InMsg := ⟨9, "obj1", "click", ⟨none, .null⟩⟩

def msgDebug : InMsg := ⟨4, "obj1", "debugScopeState", ⟨none, .null⟩⟩

def msgDebugUnknown : InMsg := ⟨3, "nope", "debugScopeState", ⟨none, .null⟩⟩

def mdB : CallMetadata := ⟨5, some "x", 0, 0, "Page", "waitForEventInfo", [], none⟩

/-! ### Reply-shape lemmas for the call paths -/

theorem runCall_shape (cfg : DispCfg) (st : WaitSt) (msg : InMsg) (disp : DispInfo)
    (md : CallMetadata) (sdk : Bool) :
    ∃ st' out1 instr1, runCall cfg st msg disp md sdk = .ok ⟨st', [out1], instr1⟩
      ∧ out1.replyId = some msg.id := by
  cases hro : (cfg.methodImpl disp.type msg.method msg.params).2 with
  | ok v =>
    simp only [runCall, hro]
    exact ⟨_, _, _, rfl, rfl⟩
  | error e =>
    simp only [runCall, hro]
    exact ⟨_, _, _, rfl, rfl⟩

theorem runWaitBefore_shape (cfg : DispCfg) (st : WaitSt) (msg : InMsg) (disp : DispInfo)
    (info : WaitInfo) (md : CallMetadata) :
    ∃ st' out1 instr1, runWaitBefore cfg st msg disp info md = .ok ⟨st', [out1], instr1⟩
      ∧ out1.replyId = some msg.id := by
  cases hro : (cfg.methodImpl disp.type msg.method msg.params).2 with
  | ok v =>
    simp only [runWaitBefore, hro]
    exact ⟨_, _, _, rfl, rfl⟩
  | error e =>
    simp only [runWaitBefore, hro]
    exact ⟨_, _, _, rfl, rfl⟩

theorem dispatch_noReply_case (cfg : DispCfg) (st : WaitSt) (msg : InMsg)
    (h : waitNoReply cfg st msg = true) :
    ∃ r : DispatchResult, dispatch cfg st msg = .ok r ∧ r.out = [] := by
  rw [waitNoReply, Bool.and_eq_true] at h
  obtain ⟨ht, hrest⟩ := h
  rw [waitTarget] at ht
  cases hd : alookup cfg.dispatchers msg.guid with
  | none => rw [hd] at ht; exact absurd ht (by simp)
  | some disp =>
    rw [hd] at ht
    simp only [Bool.and_eq_true, Bool.not_eq_eq_eq_not, Bool.not_true, beq_eq_false_iff_ne,
      ne_eq] at ht
    obtain ⟨⟨⟨hm, hv⟩, hh⟩, hs⟩ := ht
    cases hvv : cfg.validate disp.type msg.method msg.params with
    | error e => rw [hvv] at hv; exact absurd hv (by simp)
    | ok u =>
      cases hi : msg.params.info with
      | none => rw [hi] at hrest; exact absurd hrest (by simp)
      | some info =>
        rw [hi, Bool.and_eq_true, bne_iff_ne, ne_eq] at hrest
        obtain ⟨hw, hph⟩ := hrest
        cases hp : info.phase with
        | before => rw [hp] at hph; exact absurd hph (by simp)
        | log =>
          rw [hp, Option.isSome_iff_exists] at hph
          obtain ⟨om, hl⟩ := hph
          simp only [dispatch, hd, if_neg hm, hvv, hh, if_true, dispatchInner, hs, hi,
            if_pos hw, hp, runWaitLog, hl]
          exact ⟨_, rfl, rfl⟩
        | after =>
          rw [hp, Option.isSome_iff_exists] at hph
          obtain ⟨om, hl⟩ := hph
          simp only [dispatch, hd, if_neg hm, hvv, hh, if_true, dispatchInner, hs, hi,
            if_pos hw, hp, runWaitAfter, hl]
          exact ⟨_, rfl, rfl⟩

theorem dispatch_fatal_case (cfg : DispCfg) (st : WaitSt) (msg : InMsg)
    (h : waitFatal cfg st msg = true) :
    ∃ e, dispatch cfg st msg = .error e := by
  rw [waitFatal, Bool.and_eq_true] at h
  obtain ⟨ht, hrest⟩ := h
  rw [waitTarget] at ht
  cases hd : alookup cfg.dispatchers msg.guid with
  | none => rw [hd] at ht; exact absurd ht (by simp)
  | some disp =>
    rw [hd] at ht
    simp only [Bool.and_eq_true, Bool.not_eq_eq_eq_not, Bool.not_true, beq_eq_false_iff_ne,
      ne_eq] at ht
    obtain ⟨⟨⟨hm, hv⟩, hh⟩, hs⟩ := ht
    cases hvv : cfg.validate disp.type msg.method msg.params with
    | error e => rw [hvv] at hv; exact absurd hv (by simp)
    | ok u =>
      cases hi : msg.params.info with
      | none => rw [hi] at hrest; exact absurd hrest (by simp)
      | some info =>
        rw [hi, Bool.and_eq_true, bne_iff_ne, ne_eq] at hrest
        obtain ⟨hw, hph⟩ := hrest
        cases hp : info.phase with
        | before => rw [hp] at hph; exact absurd hph (by simp)
        | log => rw [hp] at hph; exact absurd hph (by simp)
        | after =>
          rw [hp, Option.isNone_iff_eq_none] at hph
          refine ⟨.typeErrorUndefined "endTime", ?_⟩
          simp only [dispatch, hd, if_neg hm, hvv, hh, if_true, dispatchInner, hs,
            hi, if_pos hw, hp, runWaitAfter, hph]

theorem dispatch_one_reply_case (cfg : DispCfg) (st : WaitSt) (msg : InMsg)
    (h1 : waitNoReply cfg st msg = false) (h2 : waitFatal cfg st msg = false) :
    ∃ r : DispatchResult, dispatch cfg st msg = .ok r
      ∧ ∃ m, r.out = [m] ∧ m.replyId = some msg.id := by
  cases hd : alookup cfg.dispatchers msg.guid with
  | none =>
    exact ⟨⟨st, [.errorReply msg.id .targetClosed], []⟩, by simp only [dispatch, hd],
      .errorReply msg.id .targetClosed, rfl, rfl⟩
  | some disp =>
    by_cases hm : msg.method = "debugScopeState"
    · exact ⟨⟨st, [.result msg.id (debugScopeStateValue cfg.root)], []⟩,
        by simp only [dispatch, hd, if_pos hm], .result msg.id (debugScopeStateValue cfg.root),
        rfl, rfl⟩
    · cases hvv : cfg.validate disp.type msg.method msg.params with
      | error e =>
        exact ⟨⟨st, [.errorReply msg.id e], []⟩,
          by simp only [dispatch, hd, if_neg hm, hvv], .errorReply msg.id e, rfl, rfl⟩
      | ok u =>
        cases hh : cfg.hasMethod disp.type msg.method with
        | false =>
          exact ⟨⟨st, [.errorReply msg.id (.mismatch disp.type msg.method)], []⟩,
            by simp only [dispatch, hd, if_neg hm, hvv, hh, Bool.false_eq_true, if_false],
            .errorReply msg.id (.mismatch disp.type msg.method), rfl, rfl⟩
        | true =>
          cases hs : disp.isSdk with
          | false =>
            obtain ⟨st', out1, instr1, heq, hid⟩ :=
              runCall_shape cfg { st with clock := st.clock + 1 } msg disp
                ⟨msg.id, none, st.clock, 0, disp.type, msg.method, [], none⟩ false
            refine ⟨⟨st', [out1], instr1⟩, ?_, out1, rfl, hid⟩
            simp only [dispatch, hd, if_neg hm, hvv, hh, if_true, dispatchInner, hs,
              Bool.false_eq_true, if_false]
            exact heq
          | true =>
            cases hi : msg.params.info with
            | none =>
              obtain ⟨st', out1, instr1, heq, hid⟩ :=
                runCall_shape cfg { st with clock := st.clock + 1 } msg disp
                  ⟨msg.id, none, st.clock, 0, disp.type, msg.method, [], none⟩ true
              refine ⟨⟨st', [out1], instr1⟩, ?_, out1, rfl, hid⟩
              simp only [dispatch, hd, if_neg hm, hvv, hh, if_true, dispatchInner, hs, hi]
              exact heq
            | some info =>
              by_cases hw : info.waitId = ""
              · obtain ⟨st', out1, instr1, heq, hid⟩ :=
                  runCall_shape cfg { st with clock := st.clock + 1 } msg disp
                    ⟨msg.id, none, st.clock, 0, disp.type, msg.method, [], none⟩ true
                refine ⟨⟨st', [out1], instr1⟩, ?_, out1, rfl, hid⟩
                simp only [dispatch, hd, if_neg hm, hvv, hh, if_true, dispatchInner, hs, hi,
                  hw, ne_eq, not_true_eq_false, if_false]
                exact heq
              · cases hp : info.phase with
                | before =>
                  obtain ⟨st', out1, instr1, heq, hid⟩ :=
                    runWaitBefore_shape cfg { st with clock := st.clock + 1 } msg disp info
                      ⟨msg.id, none, st.clock, 0, disp.type, msg.method, [], none⟩
                  refine ⟨⟨st', [out1], instr1⟩, ?_, out1, rfl, hid⟩
                  simp only [dispatch, hd, if_neg hm, hvv, hh, if_true, dispatchInner, hs, hi,
                    if_pos hw, hp]
                  exact heq
                | log =>
                  cases hl : alookup st.waitOperations info.waitId with
                  | some om =>
                    exact absurd h1 (by
                      simp [waitNoReply, waitTarget, hd, hm, hvv, hh, hs, hi, hw, hp, hl])
                  | none =>
                    simp only [dispatch, hd, if_neg hm, hvv, hh, if_true, dispatchInner,
                      hs, hi, if_pos hw, hp, runWaitLog, hl]
                    exact ⟨_, rfl, _, rfl, rfl⟩
                | after =>
                  cases hl : alookup st.waitOperations info.waitId with
                  | some om =>
                    exact absurd h1 (by
                      simp [waitNoReply, waitTarget, hd, hm, hvv, hh, hs, hi, hw, hp, hl])
                  | none =>
                    exact absurd h2 (by
                      simp [waitFatal, waitTarget, hd, hm, hvv, hh, hs, hi, hw, hp, hl])

/-- C1 (amended): every inbound message processed by dispatch yields exactly
one terminal reply carrying the original message id, except the wait
messages on an instrumentable validated target: a phase `log` message with
a pending wait id and a phase `after` message with a pending wait id
receive no reply at all — the terminal reply for the logical wait operation
is the one produced by the phase `before` message itself — and a phase
`after` message with an unknown wait id aborts dispatch fatally with no
reply (a phase `log` message with an unknown wait id still receives one
error reply). -/
theorem dispatch_reply_discipline (cfg : DispCfg) (st : WaitSt) (msg : InMsg) :
    (waitNoReply cfg st msg = true →
      ∃ r : DispatchResult, dispatch cfg st msg = .ok r ∧ r.out = [])
    ∧ (waitFatal cfg st msg = true → ∃ e, dispatch cfg st msg = .error e)
    ∧ (waitNoReply cfg st msg = false → waitFatal cfg st msg = false →
      ∃ r : DispatchResult, dispatch cfg st msg = .ok r
        ∧ ∃ m, r.out = [m] ∧ m.replyId = some msg.id) :=
  ⟨dispatch_noReply_case cfg st msg, dispatch_fatal_case cfg st msg,
   dispatch_one_reply_case cfg st msg⟩

/-- Witness for the amended C1 on a plain call. -/
theorem dispatch_reply_discipline_witness :
    ∃ r : DispatchResult, dispatch testCfg ⟨[], 0⟩ msgPlain = .ok r
      ∧ ∃ m, r.out = [m] ∧ m.replyId = some msgPlain.id :=
  (dispatch_reply_discipline testCfg ⟨[], 0⟩ msgPlain).2.2 rfl rfl

/-- C1 counterexample: on an instrumentable target, the phase `before`
message itself receives the one terminal reply (the claim says `before`
receives no reply), and the subsequent phase `after` message — which the
claim says produces the reply for the logical operation — dispatches with
an empty reply list. -/
theorem wait_before_gets_reply_counterexample :
    dispatch testCfg ⟨[], 0⟩ msgBefore
      = .ok ⟨⟨[("w1", mdB)], 2⟩, [.result 5 .null], [.beforeCall "obj1" mdB]⟩
    ∧ dispatch testCfg ⟨[("w1", mdB)], 2⟩ msgAfter
      = .ok ⟨⟨[], 4⟩, [],
          [.afterCall "obj1" ⟨5, some "x", 0, 3, "Page", "waitForEventInfo", [], none⟩]⟩ :=
  ⟨rfl, rfl⟩

/-- C2 (amended): on an instrumentable validated target, a wait-descriptor
message whose wait id is not pending behaves asymmetrically: phase `after`
fails fatally (the `TypeError` raised in the `finally` block escapes
`dispatch`), but phase `log` raises the `TypeError` inside the guarded
block where the `catch` converts it into a recoverable error reply to the
client. -/
theorem unknown_wait_id_behavior (cfg : DispCfg) (st : WaitSt) (msg : InMsg)
    (disp : DispInfo) (info : WaitInfo)
    (hd : alookup cfg.dispatchers msg.guid = some disp)
    (hm : msg.method ≠ "debugScopeState")
    (hv : cfg.validate disp.type msg.method msg.params = .ok ())
    (hh : cfg.hasMethod disp.type msg.method = true)
    (hs : disp.isSdk = true)
    (hi : msg.params.info = some info)
    (hw : info.waitId ≠ "")
    (hl : alookup st.waitOperations info.waitId = none) :
    (info.phase = .after → dispatch cfg st msg = .error (.typeErrorUndefined "endTime"))
    ∧ (info.phase = .log → dispatch cfg st msg
        = .ok ⟨⟨st.waitOperations, st.clock + 1 + 1⟩,
            [.errorReply msg.id (.typeErrorUndefined "log")], []⟩) := by
  constructor
  · intro hp
    simp only [dispatch, hd, if_neg hm, hv, hh, if_true, dispatchInner, hs, hi,
      if_pos hw, hp, runWaitAfter, hl]
  · intro hp
    simp only [dispatch, hd, if_neg hm, hv, hh, if_true, dispatchInner, hs, hi,
      if_pos hw, hp, runWaitLog, hl]

/-- Witness for the amended C2: the fatal `after` arm at a concrete input. -/
theorem unknown_wait_id_behavior_witness :
    dispatch testCfg ⟨[], 0⟩ msgAfterUnknown = .error (.typeErrorUndefined "endTime") :=
  (unknown_wait_id_behavior testCfg ⟨[], 0⟩ msgAfterUnknown ⟨"Page", true⟩
    ⟨"w9", .after, "", "", none⟩ rfl (by decide) rfl rfl rfl rfl (by decide) rfl).1 rfl

/-- C2 counterexample: a phase `log` message with an unknown wait id is
converted into a recoverable error reply and dispatch completes normally —
it does not fail fatally as the claim states. -/
theorem unknown_wait_log_recoverable_counterexample :
    dispatch testCfg ⟨[], 0⟩ msgLogUnknown
      = .ok ⟨⟨[], 2⟩, [.errorReply 7 (.typeErrorUndefined "log")], []⟩ := rfl

/-- C4 (amended): for every inbound message whose target identifier is
registered and whose method is the reserved introspection method, dispatch
replies with the root dispatcher's recursive debug snapshot and returns —
whatever registered dispatcher the message names, for every validation
oracle (validation is bypassed), leaving the wait table and clock untouched
and issuing no instrumentation notification. -/
theorem debugScopeState_shortcircuit (cfg : DispCfg) (st : WaitSt) (msg : InMsg)
    (disp : DispInfo) (hd : alookup cfg.dispatchers msg.guid = some disp)
    (hm : msg.method = "debugScopeState") :
    dispatch cfg st msg
      = .ok ⟨st, [.result msg.id (debugScopeStateValue cfg.root)], []⟩ := by
  simp only [dispatch, hd, if_pos hm]

/-- Witness for the amended C4. -/
theorem debugScopeState_shortcircuit_witness :
    dispatch testCfg ⟨[], 0⟩ msgDebug
      = .ok ⟨⟨[], 0⟩, [.result 4 (debugScopeStateValue testCfg.root)], []⟩ :=
  debugScopeState_shortcircuit testCfg ⟨[], 0⟩ msgDebug ⟨"Page", true⟩ rfl rfl

/-- C4 counterexample: a message carrying the reserved introspection method
but an unregistered target identifier is answered with the closed-target
error reply, not the debug snapshot — the guid lookup happens first, so the
short-circuit is not independent of the target identifier. -/
theorem debugScopeState_unknown_guid_counterexample :
    dispatch testCfg ⟨[], 0⟩ msgDebugUnknown
      = .ok ⟨⟨[], 0⟩, [.errorReply 3 .targetClosed], []⟩
    ∧ (OutMsg.errorReply 3 .targetClosed
        ≠ OutMsg.result 3 (debugScopeStateValue testCfg.root)) :=
  ⟨rfl, fun h => OutMsg.noConfusion h⟩

/-- C3: for the wait sequence before(op "x") → log "m1" → log "m2" → after
on wait id "w1", dispatched to an instrumentable node, the instrumentation
after-call hook fires exactly once across the whole sequence, with a single
record whose operation name is "x" and whose log equals ["m1", "m2"], and
after the `after` message the pending-wait table no longer contains "w1". -/
theorem wait_protocol_sequence (cfg : DispCfg) (st : WaitSt) (g τ : String)
    (i1 i2 i3 i4 : Nat)
    (hd : alookup cfg.dispatchers g = some ⟨τ, true⟩)
    (hv1 : cfg.validate τ "waitForEventInfo"
      ⟨some ⟨"w1", .before, "x", "", none⟩, .null⟩ = .ok ())
    (hv2 : cfg.validate τ "waitForEventInfo"
      ⟨some ⟨"w1", .log, "", "m1", none⟩, .null⟩ = .ok ())
    (hv3 : cfg.validate τ "waitForEventInfo"
      ⟨some ⟨"w1", .log, "", "m2", none⟩, .null⟩ = .ok ())
    (hv4 : cfg.validate τ "waitForEventInfo"
      ⟨some ⟨"w1", .after, "", "", none⟩, .null⟩ = .ok ())
    (hh : cfg.hasMethod τ "waitForEventInfo" = true)
    (him : cfg.methodImpl τ "waitForEventInfo"
      ⟨some ⟨"w1", .before, "x", "", none⟩, .null⟩ = ([], .ok .null))
    (hl : alookup st.waitOperations "w1" = none) :
    ∃ (stF : WaitSt) (outF : List OutMsg) (instrF : List InstrEvent),
      runSeq cfg st
        [⟨i1, g, "waitForEventInfo", ⟨some ⟨"w1", .before, "x", "", none⟩, .null⟩⟩,
         ⟨i2, g, "waitForEventInfo", ⟨some ⟨"w1", .log, "", "m1", none⟩, .null⟩⟩,
         ⟨i3, g, "waitForEventInfo", ⟨some ⟨"w1", .log, "", "m2", none⟩, .null⟩⟩,
         ⟨i4, g, "waitForEventInfo", ⟨some ⟨"w1", .after, "", "", none⟩, .null⟩⟩]
        = .ok (stF, outF, instrF)
      ∧ (∃ mdF : CallMetadata,
          instrF.filter InstrEvent.isAfterCall = [.afterCall g mdF]
          ∧ mdF.apiName = some "x" ∧ mdF.log = ["m1", "m2"])
      ∧ alookup stF.waitOperations "w1" = none := by
  obtain ⟨wo, c⟩ := st
  dsimp only at hl
  have h1 : dispatch cfg ⟨wo, c⟩
      ⟨i1, g, "waitForEventInfo", ⟨some ⟨"w1", .before, "x", "", none⟩, .null⟩⟩
      = .ok ⟨⟨aset wo "w1" ⟨i1, some "x", c, 0, τ, "waitForEventInfo", [], none⟩, c + 1 + 1⟩,
          [.result i1 .null],
          [.beforeCall g ⟨i1, some "x", c, 0, τ, "waitForEventInfo", [], none⟩]⟩ := by
    simp [dispatch, dispatchInner, runWaitBefore, hd, hv1, hh, him,
      replaceDispatchersWithGuids, isFalsy]
  have h2 : dispatch cfg
      ⟨aset wo "w1" ⟨i1, some "x", c, 0, τ, "waitForEventInfo", [], none⟩, c + 1 + 1⟩
      ⟨i2, g, "waitForEventInfo", ⟨some ⟨"w1", .log, "", "m1", none⟩, .null⟩⟩
      = .ok ⟨⟨aset wo "w1" ⟨i1, some "x", c, 0, τ, "waitForEventInfo", ["m1"], none⟩,
            c + 1 + 1 + 1 + 1⟩,
          [], [.callLog "api" "m1" g
            ⟨i1, some "x", c, 0, τ, "waitForEventInfo", ["m1"], none⟩]⟩ := by
    simp [dispatch, dispatchInner, runWaitLog, hd, hv2, hh,
      alookup_aset_self, aset_aset_self]
  have h3 : dispatch cfg
      ⟨aset wo "w1" ⟨i1, some "x", c, 0, τ, "waitForEventInfo", ["m1"], none⟩,
        c + 1 + 1 + 1 + 1⟩
      ⟨i3, g, "waitForEventInfo", ⟨some ⟨"w1", .log, "", "m2", none⟩, .null⟩⟩
      = .ok ⟨⟨aset wo "w1" ⟨i1, some "x", c, 0, τ, "waitForEventInfo", ["m1", "m2"], none⟩,
            c + 1 + 1 + 1 + 1 + 1 + 1⟩,
          [], [.callLog "api" "m2" g
            ⟨i1, some "x", c, 0, τ, "waitForEventInfo", ["m1", "m2"], none⟩]⟩ := by
    simp [dispatch, dispatchInner, runWaitLog, hd, hv3, hh,
      alookup_aset_self, aset_aset_self]
  have h4 : dispatch cfg
      ⟨aset wo "w1" ⟨i1, some "x", c, 0, τ, "waitForEventInfo", ["m1", "m2"], none⟩,
        c + 1 + 1 + 1 + 1 + 1 + 1⟩
      ⟨i4, g, "waitForEventInfo", ⟨some ⟨"w1", .after, "", "", none⟩, .null⟩⟩
      = .ok ⟨⟨wo, c + 1 + 1 + 1 + 1 + 1 + 1 + 1 + 1⟩,
          [], [.afterCall g ⟨i1, some "x", c, c + 1 + 1 + 1 + 1 + 1 + 1 + 1, τ,
            "waitForEventInfo", ["m1", "m2"], none⟩]⟩ := by
    simp [dispatch, dispatchInner, runWaitAfter, hd, hv4, hh,
      alookup_aset_self, aremove_aset_of_none, hl]
  simp only [runSeq, h1, h2, h3, h4]
  refine ⟨_, _, _, rfl, ?_, ?_⟩
  · simp only [List.append_nil, List.nil_append, List.cons_append, List.filter,
      InstrEvent.isAfterCall]
    exact ⟨_, rfl, rfl, rfl⟩
  · exact hl

/-- Witness for C3 at a concrete configuration. -/
theorem wait_protocol_sequence_witness :
    ∃ (stF : WaitSt) (outF : List OutMsg) (instrF : List InstrEvent),
      runSeq testCfg ⟨[], 0⟩
        [⟨1, "obj1", "waitForEventInfo", ⟨some ⟨"w1", .before, "x", "", none⟩, .null⟩⟩,
         ⟨2, "obj1", "waitForEventInfo", ⟨some ⟨"w1", .log, "", "m1", none⟩, .null⟩⟩,
         ⟨3, "obj1", "waitForEventInfo", ⟨some ⟨"w1", .log, "", "m2", none⟩, .null⟩⟩,
         ⟨4, "obj1", "waitForEventInfo", ⟨some ⟨"w1", .after, "", "", none⟩, .null⟩⟩]
        = .ok (stF, outF, instrF)
      ∧ (∃ mdF : CallMetadata,
          instrF.filter InstrEvent.isAfterCall = [.afterCall "obj1" mdF]
          ∧ mdF.apiName = some "x" ∧ mdF.log = ["m1", "m2"])
      ∧ alookup stF.waitOperations "w1" = none :=
  wait_protocol_sequence testCfg ⟨[], 0⟩ "obj1" "Page" 1 2 3 4
    rfl rfl rfl rfl rfl rfl rfl rfl

end PWDispatch
